import Mathlib

/-!
Verification development for the operating-hours core of the repository:
the clock-time parser, day-spec parser, line/interval parser, overnight
normalization and the status engine from src/lib/hours.ts, and the
time-zone alias normalizer from src/lib/time.ts.

Strings are modelled as `List Char`.  JS numbers produced by `Number(...)`
on the colon-separated time pieces are modelled as `Option Nat`, with
`none` playing the role of NaN (a NaN time never satisfies any of the
comparisons in the source, exactly as `none` never does here).
-/

namespace AllAccess

/-- Whitespace test used by the parsers; models the JS regex class \s on the
ASCII inputs this pipeline handles. -/
def isWs (c : Char) : Bool := c.isWhitespace

/-- Replaces en and em dashes by a plain hyphen (one character of
normalizeDash in src/lib/hours.ts). -/
def dashFix (c : Char) : Char := if c == '–' || c == '—' then '-' else c

/-- normalizeDash from src/lib/hours.ts. -/
def normalizeDash (cs : List Char) : List Char := cs.map dashFix

/-- Models String.prototype.trim: drops whitespace from both ends. -/
def trimList (cs : List Char) : List Char :=
  ((cs.dropWhile isWs).reverse.dropWhile isWs).reverse

/-- Numeric value of a decimal digit character. -/
def digitVal (c : Char) : Nat := c.toNat - 48

/-- Value of a run of decimal digit characters. -/
def digitsToNat (cs : List Char) : Nat :=
  cs.foldl (fun a c => 10 * a + digitVal c) 0

/-- Models the JS Number(...) conversion on the strings this code splits
times into: the empty string converts to 0, a run of digits to its value,
anything else to NaN (modelled as none). -/
def jsNumber (cs : List Char) : Option Nat :=
  if cs.isEmpty then some 0
  else if cs.all Char.isDigit then some (digitsToNat cs) else none

/-- Models String.prototype.split applied with separator ":". -/
def splitOnColon : List Char → List (List Char)
  | [] => [[]]
  | c :: rest =>
    if c == ':' then [] :: splitOnColon rest
    else
      match splitOnColon rest with
      | [] => [[c]]
      | h :: t => (c :: h) :: t

/-- toMinutes from src/lib/hours.ts.  The source returns 0 when either of
the first two pieces is NaN; when there is no second piece at all the JS
arithmetic yields NaN, modelled here as none. -/
def toMinutes (cs : List Char) : Option Nat :=
  match (splitOnColon cs).map jsNumber with
  | h? :: m? :: _ =>
    match h?, m? with
    | some h, some m => some (h * 60 + m)
    | _, _ => some 0
  | _ => none

/-- pad from src/lib/hours.ts: decimal rendering left-padded with '0' to
width two. -/
def pad (n : Nat) : List Char :=
  let s := Nat.toDigits 10 n
  if s.length < 2 then '0' :: s else s

/-- The am/pm suffix of a clock-time token. -/
inductive Meridiem | am | pm
deriving DecidableEq, Repr

/-- Matches the tail (am|pm)?$ of the clock-time regex. -/
def matchMer : List Char → Option (Option Meridiem)
  | [] => some none
  | ['a', 'm'] => some (some Meridiem.am)
  | ['p', 'm'] => some (some Meridiem.pm)
  | _ => none

/-- Matches the tail (?::(\d\d))?(am|pm)?$ of the clock-time regex. -/
def matchMin : List Char → Option (Option Nat × Option Meridiem)
  | ':' :: a :: b :: rest =>
    if a.isDigit && b.isDigit then
      (matchMer rest).map (fun mer => (some (10 * digitVal a + digitVal b), mer))
    else none
  | ':' :: _ => none
  | cs => (matchMer cs).map (fun mer => ((none : Option Nat), mer))

/-- The anchored clock-time regex of parseTimeTo24h, including the
backtracking of the greedy 1-2 digit hour: on success returns the hour
value, the optional minute value and the optional meridiem. -/
def matchTime24 : List Char → Option (Nat × Option Nat × Option Meridiem)
  | [] => none
  | c :: rest =>
    if c.isDigit then
      match rest with
      | c2 :: rest2 =>
        if c2.isDigit then
          match matchMin rest2 with
          | some r => some (10 * digitVal c + digitVal c2, r.1, r.2)
          | none => (matchMin rest).map (fun r => (digitVal c, r.1, r.2))
        else (matchMin rest).map (fun r => (digitVal c, r.1, r.2))
      | [] => some (digitVal c, none, none)
    else none

/-- The cleaning step of parseTimeTo24h: lower-case, strip whitespace,
strip periods. -/
def cleanTime (cs : List Char) : List Char :=
  (cs.map Char.toLower).filter (fun c => !isWs c && !(c == '.'))

/-- Canonical HH:MM rendering used by parseTimeTo24h. -/
def renderTime (hour minute : Nat) : List Char := pad hour ++ ':' :: pad minute

/-- parseTimeTo24h from src/lib/hours.ts. -/
def parseTimeTo24h (value : List Char) : Option (List Char) :=
  match matchTime24 (cleanTime value) with
  | none => none
  | some (h, mo, mer) =>
    let minute := mo.getD 0
    if minute > 59 then none
    else
      let hour? : Option Nat :=
        match mer with
        | some Meridiem.am => if h < 1 || h > 12 then none else some (if h == 12 then 0 else h)
        | some Meridiem.pm => if h < 1 || h > 12 then none else some (if h == 12 then 12 else h + 12)
        | none => if h > 24 then none else some h
      match hour? with
      | none => none
      | some hour =>
        if hour == 24 && minute != 0 then none else some (renderTime hour minute)

/-- Tests a predicate at every suffix of a list (regex scanning: try a
match at every start position). -/
def anyPos (p : List Char → Bool) : List Char → Bool
  | [] => p []
  | c :: rest => p (c :: rest) || anyPos p rest

/-- Substring test: the pattern occurs somewhere in the text. -/
def containsSub (pat cs : List Char) : Bool :=
  anyPos (fun suf => pat.isPrefixOf suf) cs

/-- After optional whitespace, the text starts with "hour" (the decisive
part of the /24\s*hours?/i test, applied to lower-cased text). -/
def hourAfterWs (cs : List Char) : Bool :=
  "hour".data.isPrefixOf (cs.dropWhile isWs)

/-- Match of /24\s*hours?/i at one position of the lower-cased text. -/
def pat24At : List Char → Bool
  | a :: b :: rest => a == '2' && b == '4' && hourAfterWs rest
  | _ => false

/-- After optional whitespace, the text starts with "24". -/
def twoFourAfterWs (cs : List Char) : Bool :=
  "24".data.isPrefixOf (cs.dropWhile isWs)

/-- Match of /open\s*24/i at one position of the lower-cased text. -/
def patOpen24At : List Char → Bool
  | a :: b :: c :: d :: rest =>
    a == 'o' && b == 'p' && c == 'e' && d == 'n' && twoFourAfterWs rest
  | _ => false

/-- Tries f on each element in order and returns the first success
(regex backtracking over an ordered list of alternatives). -/
def firstSome : List α → (α → Option β) → Option β
  | [], _ => none
  | x :: rest, f =>
    match f x with
    | some r => some r
    | none => firstSome rest f

/-- The ordered continuations of a time token after its hour digits:
optional ":dd", then greedy \s*, then optional case-insensitive am/pm.
Each candidate is the captured group text paired with the rest of the
input; candidates appear in the order the regex engine would try them. -/
def contTok (digits : List Char) (cs : List Char) : List (List Char × List Char) :=
  let colonCands : List (List Char × List Char) :=
    match cs with
    | c :: a :: b :: rest =>
      if c == ':' && a.isDigit && b.isDigit then
        [(digits ++ [c, a, b], rest), (digits, c :: a :: b :: rest)]
      else [(digits, c :: a :: b :: rest)]
    | _ => [(digits, cs)]
  colonCands.flatMap (fun cand =>
    let cap := cand.1 ++ cand.2.takeWhile isWs
    let rest := cand.2.dropWhile isWs
    (match rest with
     | x :: y :: rest2 =>
       if (x.toLower == 'a' || x.toLower == 'p') && y.toLower == 'm' then
         [(cap ++ [x, y], rest2)]
       else []
     | _ => []) ++ [(cap, rest)])

/-- The ordered candidates for the time-token subpattern
\d?\d(?::\d\d)?\s*(?:am|pm)? starting exactly at the head of the input:
the greedy two-digit hour is tried before the one-digit hour. -/
def timeTokenCands : List Char → List (List Char × List Char)
  | [] => []
  | c :: rest =>
    if c.isDigit then
      (match rest with
       | c2 :: rest2 => if c2.isDigit then contTok [c, c2] rest2 else []
       | [] => []) ++ contTok [c] rest
    else []

/-- One attempt of the full time-range regex (token, \s*, hyphen, \s*,
token) anchored at the current position, with backtracking over both
candidate lists of both tokens. -/
def tryRangeAt (cs : List Char) : Option (List Char × List Char) :=
  firstSome (timeTokenCands cs) (fun cand =>
    match cand.2.dropWhile isWs with
    | '-' :: rest3 =>
      firstSome (timeTokenCands (rest3.dropWhile isWs)) (fun cand2 =>
        some (cand.1, cand2.1))
    | _ => none)

/-- Leftmost match of the time-range regex: scan start positions left to
right. -/
def findTimeRange : List Char → Option (List Char × List Char)
  | [] => none
  | c :: rest =>
    match tryRangeAt (c :: rest) with
    | some r => some r
    | none => findTimeRange rest

/-- parseTimeRange from src/lib/hours.ts: all-day markers first, then the
first time-range match, each side parsed with parseTimeTo24h. -/
def parseTimeRange (text : List Char) : Option (List Char × List Char) :=
  let normalized := normalizeDash text
  let low := normalized.map Char.toLower
  if anyPos pat24At low || anyPos patOpen24At low then
    some ("00:00".data, "24:00".data)
  else
    match findTimeRange normalized with
    | none => none
    | some g =>
      match parseTimeTo24h g.1, parseTimeTo24h g.2 with
      | some o, some c => some (o, c)
      | _, _ => none


/-- The weekday-token alternatives of DAY_REGEX in the order the regex
engine tries them (top-level alternation sun|mon|tue|wed|thu|fri|sat, and
inside each, the greedy optional suffix group in its own alternation
order), each paired with its DAY_MAP value. -/
def dayCands : List (List Char × Nat) :=
  [("sunday".data, 0), ("sun".data, 0),
   ("monday".data, 1), ("mon".data, 1),
   ("tues".data, 2), ("tuesday".data, 2), ("tue".data, 2),
   ("wednesday".data, 3), ("wed".data, 3),
   ("thur".data, 4), ("thurs".data, 4), ("thursday".data, 4), ("thu".data, 4),
   ("friday".data, 5), ("fri".data, 5),
   ("saturday".data, 6), ("sat".data, 6)]

/-- All ways a weekday token can match at the head of the text, in regex
try order: the DAY_MAP value and the rest of the input after the token. -/
def matchDayAt (cs : List Char) : List (Nat × List Char) :=
  dayCands.filterMap (fun cand =>
    if cand.1.isPrefixOf cs then some (cand.2, cs.drop cand.1.length) else none)

/-- The global DAY_REGEX scan: at each position take the first matching
alternative and continue after it, otherwise advance one character.  The
fuel is the remaining length; every match consumes at least one character,
so the fuel never runs out before the text does. -/
def scanDaysGo : Nat → List Char → List Nat
  | 0, _ => []
  | _ + 1, [] => []
  | fuel + 1, c :: rest =>
    match (matchDayAt (c :: rest)).head? with
    | some hit => hit.1 :: scanDaysGo fuel hit.2
    | none => scanDaysGo fuel rest

/-- All weekday tokens found in the text, in match order. -/
def scanDays (cs : List Char) : List Nat := scanDaysGo cs.length cs

/-- Array.from(new Set(days)): de-duplicate keeping first occurrences. -/
def dedup (l : List Nat) : List Nat := go [] l where
  go : List Nat → List Nat → List Nat
    | _, [] => []
    | seen, d :: rest =>
      if seen.contains d then go seen rest else d :: go (d :: seen) rest

/-- One attempt of the day-range regex
token \s* (- or "to") \s* token anchored at the current position. -/
def tryDayRangeAt (cs : List Char) : Option (Nat × Nat) :=
  firstSome (matchDayAt cs) (fun hit =>
    let sep? : Option (List Char) :=
      match hit.2.dropWhile isWs with
      | '-' :: t => some t
      | 't' :: 'o' :: t => some t
      | _ => none
    match sep? with
    | none => none
    | some t =>
      firstSome (matchDayAt (t.dropWhile isWs)) (fun hit2 => some (hit.1, hit2.1)))

/-- Leftmost match of the day-range regex. -/
def findDayRange : List Char → Option (Nat × Nat)
  | [] => none
  | c :: rest =>
    match tryDayRangeAt (c :: rest) with
    | some r => some r
    | none => findDayRange rest

/-- expandDayRange from src/lib/hours.ts: walk forward from start with
wraparound, at most seven days, stopping after the end day. -/
def expandDayRange (s e : Nat) : List Nat := go 7 s where
  go : Nat → Nat → List Nat
    | 0, _ => []
    | fuel + 1, cur => cur :: (if cur == e then [] else go fuel ((cur + 1) % 7))

/-- parseDaysPart from src/lib/hours.ts. -/
def parseDaysPart (text : List Char) : List Nat :=
  let normalized := trimList (normalizeDash (text.map Char.toLower))
  if normalized.isEmpty then []
  else if containsSub "daily".data normalized
      || containsSub "every day".data normalized
      || containsSub "everyday".data normalized then
    [0, 1, 2, 3, 4, 5, 6]
  else
    match findDayRange normalized with
    | some r => expandDayRange r.1 r.2
    | none => dedup (scanDays normalized)


/-- HoursSpan from src/lib/types.ts.  The fields openTime and closeTime
model the source fields named open and close (keywords in Lean). -/
structure HoursSpan where
  day : Nat
  openTime : List Char
  closeTime : List Char
deriving DecidableEq, Repr

/-- normalizeSpan from src/lib/hours.ts.  When either time is NaN both the
equality and the less-than comparison of the source are false, so the
split branch is taken, exactly as in the none cases here. -/
def normalizeSpan (span : HoursSpan) : List HoursSpan :=
  match toMinutes span.openTime, toMinutes span.closeTime with
  | some o, some c =>
    if o == c then []
    else if o < c then [span]
    else
      [⟨span.day, span.openTime, "24:00".data⟩,
       ⟨(span.day + 1) % 7, "00:00".data, span.closeTime⟩]
  | _, _ =>
    [⟨span.day, span.openTime, "24:00".data⟩,
     ⟨(span.day + 1) % 7, "00:00".data, span.closeTime⟩]

/-- Index of the first decimal digit, modelling String.prototype.search
with the class \d; none models the value -1 of the source. -/
def firstDigitIdx : List Char → Option Nat
  | [] => none
  | c :: rest =>
    if c.isDigit then some 0 else (firstDigitIdx rest).map (fun i => i + 1)

/-- The day-spec text selected by parseHoursLines: the part of the line
before the first digit of its dash-normalized form when that digit sits at
a positive index, and the whole line otherwise (first digit at index 0, or
no digit at all, where the source index is -1). -/
def daysPartText (line : List Char) : List Char :=
  match firstDigitIdx (normalizeDash line) with
  | some i => if 0 < i then line.take i else line
  | none => line

/-- The per-line work of parseHoursLines: trim, drop empty and "closed"
lines, find a time range, parse the day-spec text, emit one tentative span
per day. -/
def parseLine (rawLine : List Char) : List HoursSpan :=
  let line := trimList rawLine
  if line.isEmpty then []
  else if containsSub "closed".data (line.map Char.toLower) then []
  else
    match parseTimeRange line with
    | none => []
    | some tr =>
      let days := parseDaysPart (daysPartText line)
      days.map (fun d => ⟨d, tr.1, tr.2⟩)

/-- parseHoursLines from src/lib/hours.ts: collect tentative spans from
every line, then normalize each span (overnight splitting). -/
def parseHoursLines (lines : List (List Char)) : List HoursSpan :=
  (lines.flatMap parseLine).flatMap normalizeSpan

/-- The containment test minutes >= open && minutes < close of the source,
with a NaN time failing the comparison as in JS. -/
def spanContains (minutes : Nat) (span : HoursSpan) : Bool :=
  match toMinutes span.openTime, toMinutes span.closeTime with
  | some o, some c => decide (o ≤ minutes) && decide (minutes < c)
  | _, _ => false

/-- isOpenAt from src/lib/hours.ts.  The wall-clock decomposition
getZonedParts (an external date-fns-tz call) is modelled by passing its
day and minutes output directly. -/
def isOpenAt (spans : List HoursSpan) (day minutes : Nat) : Bool :=
  if spans.isEmpty then false
  else spans.any (fun span => span.day == day && spanContains minutes span)

/-- The four values of the HoursStatus string union: "open",
"closing_soon", "opening_soon", "closed". -/
inductive HoursStatus | openStatus | closingSoon | openingSoon | closedStatus
deriving DecidableEq, Repr

/-- HoursStatusResult from src/lib/hours.ts. -/
structure HoursStatusResult where
  status : HoursStatus
  minutesUntilClose : Option Nat
  minutesUntilOpen : Option Nat
deriving DecidableEq, Repr

/-- HoursStatusOptions from src/lib/hours.ts; none means the option was
not supplied and the default applies. -/
structure HoursStatusOptions where
  closingSoonMinutes : Option Nat
  openingSoonMinutes : Option Nat
deriving DecidableEq, Repr

/-- The empty options object: no overrides supplied. -/
def noOptions : HoursStatusOptions := ⟨none, none⟩

/-- The first span of the query day containing the query minute (the
openSpan loop of getHoursStatus). -/
def findOpenSpan (spans : List HoursSpan) (day minutes : Nat) : Option HoursSpan :=
  (spans.filter (fun s => s.day == day)).find? (fun s => spanContains minutes s)

/-- The minutes-until-close computation of getHoursStatus for a containing
span: close minus now, except that a span closing at the 24:00 sentinel
whose next day has a span opening at 00:00 merges the countdown across
midnight.  none models both an absent and a NaN value. -/
def computeMinutesUntilClose (spans : List HoursSpan) (day minutes : Nat)
    (openSpan : HoursSpan) : Option Nat :=
  let base := (toMinutes openSpan.closeTime).map (fun c => c - minutes)
  if openSpan.closeTime == "24:00".data then
    match (spans.filter (fun s => s.day == (day + 1) % 7)).find?
        (fun s => s.openTime == "00:00".data) with
    | some m => (toMinutes m.closeTime).map (fun c => 24 * 60 - minutes + c)
    | none => base
  else base

/-- The defined-and-below-threshold test of the source,
v !== undefined && v <= t, with NaN also failing (see getHoursStatus). -/
def okLE (v? : Option Nat) (t : Nat) : Bool :=
  match v? with
  | some v => decide (v ≤ t)
  | none => false

/-- The branch of getHoursStatus taken when a containing span was found:
all-day spans carry no countdown, otherwise the countdown decides between
closing_soon (inclusive threshold) and open. -/
def openBranch (spans : List HoursSpan) (day minutes closingSoonMinutes : Nat)
    (openSpan : HoursSpan) : HoursStatusResult :=
  let openAllDay := openSpan.openTime == "00:00".data
    && openSpan.closeTime == "24:00".data
  let minutesUntilClose : Option Nat :=
    if openAllDay then none
    else computeMinutesUntilClose spans day minutes openSpan
  if !openAllDay && okLE minutesUntilClose closingSoonMinutes then
    ⟨HoursStatus.closingSoon, minutesUntilClose, none⟩
  else ⟨HoursStatus.openStatus, minutesUntilClose, none⟩

/-- The minutes-until-open computation of getHoursStatus when no span
contains the query minute: smallest opening later today, else the earliest
opening of the next day shifted past midnight; none models both no known
opening and a NaN value. -/
def computeMinutesUntilOpen (spans : List HoursSpan) (day minutes : Nat) : Option Nat :=
  let daySpans := spans.filter (fun s => s.day == day)
  let nextOpenToday := ((daySpans.filterMap (fun s => toMinutes s.openTime)).filter
    (fun o => decide (minutes < o))).min?
  match nextOpenToday with
  | some o => some (o - minutes)
  | none =>
    let nextDaySpans := spans.filter (fun s => s.day == (day + 1) % 7)
    if nextDaySpans.isEmpty then none
    else
      let opens := nextDaySpans.map (fun s => toMinutes s.openTime)
      if opens.any Option.isNone then none
      else ((opens.filterMap id).min?).map (fun o => 24 * 60 - minutes + o)

/-- The branch of getHoursStatus taken when no containing span exists:
deciding between opening_soon (inclusive threshold) and closed. -/
def closedBranch (spans : List HoursSpan) (day minutes openingSoonMinutes : Nat) :
    HoursStatusResult :=
  let minutesUntilOpen := computeMinutesUntilOpen spans day minutes
  if okLE minutesUntilOpen openingSoonMinutes then
    ⟨HoursStatus.openingSoon, none, minutesUntilOpen⟩
  else ⟨HoursStatus.closedStatus, none, minutesUntilOpen⟩

/-- getHoursStatus from src/lib/hours.ts, with the wall-clock
decomposition of the query instant passed as day and minutes (see
isOpenAt).  In the source a NaN minutesUntilClose or minutesUntilOpen
(possible only for malformed caller-supplied time strings) fails the
threshold comparisons just like an undefined one; both are modelled as
none. -/
def getHoursStatus (spans : List HoursSpan) (day minutes : Nat)
    (options : HoursStatusOptions) : HoursStatusResult :=
  if spans.isEmpty then ⟨HoursStatus.closedStatus, none, none⟩
  else
    match findOpenSpan spans day minutes with
    | some openSpan =>
      openBranch spans day minutes (options.closingSoonMinutes.getD 90) openSpan
    | none => closedBranch spans day minutes (options.openingSoonMinutes.getD 60)

/-- The strict open-before-close comparison of the interval invariant,
false also when either time is NaN. -/
def spanOpenLtClose (s : HoursSpan) : Bool :=
  match toMinutes s.openTime, toMinutes s.closeTime with
  | some o, some c => decide (o < c)
  | _, _ => false

/-- The non-strict open-before-close comparison, false when either time
is NaN. -/
def spanOpenLeClose (s : HoursSpan) : Bool :=
  match toMinutes s.openTime, toMinutes s.closeTime with
  | some o, some c => decide (o ≤ c)
  | _, _ => false

/-- A span covers the wall-clock point (day dq, minute m) when its day
matches and the minute lies in the half-open open-close window (the
containment test of the status engine). -/
def spanCovers (s : HoursSpan) (dq m : Nat) : Bool :=
  s.day == dq && spanContains m s

/-- Following the words of the spec: the set of minutes covered by a naive
wraparound span on day d with numeric open o and close c (c below o) is
the tail of day d from o together with the head of day (d+1) mod 7 up to
c. -/
def wrapCovers (d o c dq m : Nat) : Bool :=
  (d == dq && decide (o ≤ m)) || ((d + 1) % 7 == dq && decide (m < c))

/-- The decimal digit character for a digit value. -/
def digitCh (d : Nat) : Char := Char.ofNat (48 + d)

/-- The seven canonical three-letter day names, indexed by WeekdayIndex. -/
def dayNames : List (List Char) :=
  ["Sun".data, "Mon".data, "Tue".data, "Wed".data, "Thu".data, "Fri".data, "Sat".data]

/-- The canonical textual rendering of an interval described by the spec. -/
def renderLine (day : Nat) (o c : List Char) : List Char :=
  dayNames.getD day [] ++ ' ' :: (o ++ ' ' :: '-' :: ' ' :: c)

/-- NYC_TIMEZONE from src/lib/time.ts. -/
def NYC_TIMEZONE : List Char := "America/New_York".data

/-- The fixed alias set of normalizeTimeZone in src/lib/time.ts. -/
def tzAliases : List (List Char) :=
  ["Eastern Standard Time".data, "Eastern Daylight Time".data,
   "EST".data, "EDT".data, "US/Eastern".data]

/-- normalizeTimeZone from src/lib/time.ts; none models an absent
argument (the first falsy test also catches the empty string). -/
def normalizeTimeZone (value : Option (List Char)) : List Char :=
  match value with
  | none => NYC_TIMEZONE
  | some v =>
    if v.isEmpty then NYC_TIMEZONE
    else
      let trimmed := trimList v
      if trimmed.isEmpty then NYC_TIMEZONE
      else if tzAliases.contains trimmed then NYC_TIMEZONE
      else trimmed

/-!
Sanity checks: concrete evaluations of the embedded pipeline, including
the scenarios of the specification.
-/

example : parseTimeRange "Tue 10:00pm - 2:00am".data
    = some ("22:00".data, "02:00".data) := by decide
example : parseTimeRange "Daily 24 hours".data
    = some ("00:00".data, "24:00".data) := by decide
example : parseTimeRange "Open 24/7".data
    = some ("00:00".data, "24:00".data) := by decide
example : parseTimeRange "Mon 9 - 17".data = some ("09:00".data, "17:00".data) := by decide
example : parseTimeRange "closed".data = none := by decide
example : parseTimeRange "6:00am – 10:00pm".data
    = some ("06:00".data, "22:00".data) := by decide
example : parseDaysPart "Mon-Fri".data = [1, 2, 3, 4, 5] := by decide
example : parseDaysPart "Fri-Mon".data = [5, 6, 0, 1] := by decide
example : parseDaysPart "Daily".data = [0, 1, 2, 3, 4, 5, 6] := by decide
example : parseDaysPart "Sat, Sun".data = [6, 0] := by decide
example : parseDaysPart "Tue ".data = [2] := by decide
example : parseDaysPart "Thursday".data = [4] := by decide
example : parseDaysPart "weds to sunday".data = [3, 0] := by decide
example : parseDaysPart "wed to sunday".data = [3, 4, 5, 6, 0] := by decide
example : parseDaysPart "9:00 - 17:00 Mon".data = [1] := by decide
example : parseDaysPart "nothing here".data = [] := by decide
example : parseHoursLines ["Tue 10:00pm - 2:00am".data]
    = [⟨2, "22:00".data, "24:00".data⟩, ⟨3, "00:00".data, "02:00".data⟩] := by decide
example : getHoursStatus (parseHoursLines ["Tue 10:00pm - 2:00am".data]) 3 90 noOptions
    = ⟨HoursStatus.closingSoon, some 30, none⟩ := by decide
example : getHoursStatus (parseHoursLines ["Tue 10:00pm - 2:00am".data]) 2 1380 noOptions
    = ⟨HoursStatus.openStatus, some 180, none⟩ := by decide
example : parseHoursLines ["9:00 - 17:00 Mon".data]
    = [⟨1, "09:00".data, "17:00".data⟩] := by decide
example : parseHoursLines ["Mon 10:00pm - 0:00".data]
    = [⟨1, "22:00".data, "24:00".data⟩, ⟨2, "00:00".data, "00:00".data⟩] := by decide
example : (parseHoursLines
    ["Mon-Fri 6:00am - 10:00pm".data, "Sat-Sun 8:00am - 8:00pm".data]).length = 7 := by
  decide
example : getHoursStatus
    (parseHoursLines ["Mon-Fri 6:00am - 10:00pm".data, "Sat-Sun 8:00am - 8:00pm".data])
    3 1305 noOptions = ⟨HoursStatus.closingSoon, some 15, none⟩ := by decide
example : getHoursStatus (parseHoursLines ["Daily 24 hours".data]) 5 700 noOptions
    = ⟨HoursStatus.openStatus, none, none⟩ := by decide
example : normalizeTimeZone (some "EST".data) = NYC_TIMEZONE := by decide
example : normalizeTimeZone (some " UTC ".data) = "UTC".data := by decide
example : parseTimeTo24h "10:00pm".data = some "22:00".data := by decide
example : parseTimeTo24h "2:00am".data = some "02:00".data := by decide
example : parseTimeTo24h "9".data = some "09:00".data := by decide
example : parseTimeTo24h "11 P.M.".data = some "23:00".data := by decide
example : parseTimeTo24h "24:00".data = some "24:00".data := by decide
example : parseTimeTo24h "24:30".data = none := by decide
example : parseTimeTo24h "13pm".data = none := by decide
example : parseTimeTo24h "12am".data = some "00:00".data := by decide
example : parseTimeTo24h "123".data = none := by decide
example : toMinutes "22:00".data = some 1320 := by decide





/-!
Helper lemmas.
-/


theorem isWs_of_digit {c : Char} (h : c.isDigit = true) : isWs c = false := by
  by_contra hw
  rw [Bool.not_eq_false] at hw
  unfold isWs at hw
  simp [Char.isWhitespace] at hw
  rcases hw with ((rfl | rfl) | rfl) | rfl <;> revert h <;> decide

theorem digit_beq_false {c d : Char} (h : c.isDigit = true) (hd : d.isDigit = false) :
    (c == d) = false := by
  cases h2 : c == d
  · rfl
  · exact absurd (eq_of_beq h2 ▸ h) (by simp [hd])

theorem digitCh_facts : ∀ d < 10, (digitCh d).isDigit = true ∧ (digitCh d).toLower = digitCh d
    ∧ isWs (digitCh d) = false ∧ dashFix (digitCh d) = digitCh d
    ∧ ((digitCh d) == '.') = false ∧ digitVal (digitCh d) = d := by decide

theorem pad_eq_digits : ∀ h < 100, pad h = [digitCh (h / 10), digitCh (h % 10)] := by decide

theorem toMinutes_renderTime : ∀ h < 25, ∀ m < 60,
    toMinutes (renderTime h m) = some (h * 60 + m) := by decide

theorem parseTime_roundtrip : ∀ h < 25, ∀ m < 60, (h = 24 → m = 0) →
    parseTimeTo24h (renderTime h m) = some (renderTime h m) := by decide

theorem parseTime_roundtrip_sp : ∀ h < 25, ∀ m < 60, (h = 24 → m = 0) →
    parseTimeTo24h (renderTime h m ++ [' ']) = some (renderTime h m) := by decide

theorem tryRangeAt_nondigit {c : Char} (cs : List Char) (h : c.isDigit = false) :
    tryRangeAt (c :: cs) = none := by
  simp [tryRangeAt, timeTokenCands, firstSome, h]

theorem findTimeRange_step {c : Char} (cs : List Char) (h : tryRangeAt (c :: cs) = none) :
    findTimeRange (c :: cs) = findTimeRange cs := by
  simp [findTimeRange, h]

theorem tryRangeAt_canonical (a1 b1 c1 d1 a2 b2 c2 d2 : Char)
    (h1 : a1.isDigit = true) (h2 : b1.isDigit = true)
    (h3 : c1.isDigit = true) (h4 : d1.isDigit = true)
    (h5 : a2.isDigit = true) (h6 : b2.isDigit = true)
    (h7 : c2.isDigit = true) (h8 : d2.isDigit = true) :
    tryRangeAt [a1, b1, ':', c1, d1, ' ', '-', ' ', a2, b2, ':', c2, d2]
      = some ([a1, b1, ':', c1, d1, ' '], [a2, b2, ':', c2, d2]) := by
  simp +decide [tryRangeAt, timeTokenCands, contTok, firstSome,
    h1, h2, h3, h4, h5, h6, h7, h8, isWs_of_digit h5]



section RoundTrip

set_option maxHeartbeats 4000000

theorem roundtrip_core (p1 p2 p3 q1 q2 q3 : Char) (k : Nat) (h1 m1 h2 m2 : Nat)
    (hl1 : p1.toLower = q1) (hl2 : p2.toLower = q2) (hl3 : p3.toLower = q3)
    (hd1 : p1.isDigit = false) (hd2 : p2.isDigit = false) (hd3 : p3.isDigit = false)
    (hwp1 : isWs p1 = false)
    (_hwq1 : isWs q1 = false) (_hwq2 : isWs q2 = false) (hwq3 : isWs q3 = false)
    (hf1 : dashFix p1 = p1) (hf2 : dashFix p2 = p2) (hf3 : dashFix p3 = p3)
    (hpd : parseDaysPart [p1, p2, p3, ' '] = [k])
    (hh1 : h1 ≤ 24) (hm1 : m1 ≤ 59) (h241 : h1 = 24 → m1 = 0)
    (hh2 : h2 ≤ 24) (hm2 : m2 ≤ 59) (h242 : h2 = 24 → m2 = 0)
    (hlt : h1 * 60 + m1 < h2 * 60 + m2) :
    parseHoursLines [p1 :: p2 :: p3 :: ' ' ::
        (renderTime h1 m1 ++ ' ' :: '-' :: ' ' :: renderTime h2 m2)]
      = [⟨k, renderTime h1 m1, renderTime h2 m2⟩] := by
  obtain ⟨dA1, lA1, wA1, fA1, pA1, vA1⟩ := digitCh_facts (h1 / 10) (by omega)
  obtain ⟨dB1, lB1, wB1, fB1, pB1, vB1⟩ := digitCh_facts (h1 % 10) (by omega)
  obtain ⟨dC1, lC1, wC1, fC1, pC1, vC1⟩ := digitCh_facts (m1 / 10) (by omega)
  obtain ⟨dD1, lD1, wD1, fD1, pD1, vD1⟩ := digitCh_facts (m1 % 10) (by omega)
  obtain ⟨dA2, lA2, wA2, fA2, pA2, vA2⟩ := digitCh_facts (h2 / 10) (by omega)
  obtain ⟨dB2, lB2, wB2, fB2, pB2, vB2⟩ := digitCh_facts (h2 % 10) (by omega)
  obtain ⟨dC2, lC2, wC2, fC2, pC2, vC2⟩ := digitCh_facts (m2 / 10) (by omega)
  obtain ⟨dD2, lD2, wD2, fD2, pD2, vD2⟩ := digitCh_facts (m2 % 10) (by omega)
  have e1 : pad h1 = [digitCh (h1 / 10), digitCh (h1 % 10)] := pad_eq_digits _ (by omega)
  have e2 : pad m1 = [digitCh (m1 / 10), digitCh (m1 % 10)] := pad_eq_digits _ (by omega)
  have e3 : pad h2 = [digitCh (h2 / 10), digitCh (h2 % 10)] := pad_eq_digits _ (by omega)
  have e4 : pad m2 = [digitCh (m2 / 10), digitCh (m2 % 10)] := pad_eq_digits _ (by omega)
  simp only [renderTime, e1, e2, e3, e4, List.cons_append, List.nil_append]
  set A1 := digitCh (h1 / 10)
  set B1 := digitCh (h1 % 10)
  set C1 := digitCh (m1 / 10)
  set D1 := digitCh (m1 % 10)
  set A2 := digitCh (h2 / 10)
  set B2 := digitCh (h2 % 10)
  set C2 := digitCh (m2 / 10)
  set D2 := digitCh (m2 % 10)
  have hp1 : parseTimeTo24h [A1, B1, ':', C1, D1, ' '] = some [A1, B1, ':', C1, D1] := by
    have t := parseTime_roundtrip_sp h1 (by omega) m1 (by omega) h241
    rw [renderTime, e1, e2] at t
    simpa using t
  have hp2 : parseTimeTo24h [A2, B2, ':', C2, D2] = some [A2, B2, ':', C2, D2] := by
    have t := parseTime_roundtrip h2 (by omega) m2 (by omega) h242
    rw [renderTime, e3, e4] at t
    simpa using t
  have hto1 : toMinutes [A1, B1, ':', C1, D1] = some (h1 * 60 + m1) := by
    have t := toMinutes_renderTime h1 (by omega) m1 (by omega)
    rw [renderTime, e1, e2] at t
    simpa using t
  have hto2 : toMinutes [A2, B2, ':', C2, D2] = some (h2 * 60 + m2) := by
    have t := toMinutes_renderTime h2 (by omega) m2 (by omega)
    rw [renderTime, e3, e4] at t
    simpa using t
  have hfind : findTimeRange
      [p1, p2, p3, ' ', A1, B1, ':', C1, D1, ' ', '-', ' ', A2, B2, ':', C2, D2]
      = some ([A1, B1, ':', C1, D1, ' '], [A2, B2, ':', C2, D2]) := by
    rw [findTimeRange_step _ (tryRangeAt_nondigit _ hd1),
        findTimeRange_step _ (tryRangeAt_nondigit _ hd2),
        findTimeRange_step _ (tryRangeAt_nondigit _ hd3),
        findTimeRange_step _ (tryRangeAt_nondigit _ (by decide))]
    simp [findTimeRange, tryRangeAt_canonical A1 B1 C1 D1 A2 B2 C2 D2
      dA1 dB1 dC1 dD1 dA2 dB2 dC2 dD2]
  have hnd : normalizeDash
      [p1, p2, p3, ' ', A1, B1, ':', C1, D1, ' ', '-', ' ', A2, B2, ':', C2, D2]
      = [p1, p2, p3, ' ', A1, B1, ':', C1, D1, ' ', '-', ' ', A2, B2, ':', C2, D2] := by
    simp +decide [normalizeDash, hf1, hf2, hf3, fA1, fB1, fC1, fD1, fA2, fB2, fC2, fD2]
  have hlow : [p1, p2, p3, ' ', A1, B1, ':', C1, D1, ' ', '-', ' ', A2, B2, ':', C2,
      D2].map Char.toLower
      = [q1, q2, q3, ' ', A1, B1, ':', C1, D1, ' ', '-', ' ', A2, B2, ':', C2, D2] := by
    simp only [List.map_cons, List.map_nil, hl1, hl2, hl3,
      lA1, lB1, lC1, lD1, lA2, lB2, lC2, lD2,
      (by decide : ' '.toLower = ' '), (by decide : ':'.toLower = ':'),
      (by decide : '-'.toLower = '-')]
  have h24 : anyPos pat24At
      [q1, q2, q3, ' ', A1, B1, ':', C1, D1, ' ', '-', ' ', A2, B2, ':', C2, D2] = false := by
    simp +decide [anyPos, pat24At, hourAfterWs, List.dropWhile_cons, List.isPrefixOf,
      hwq3, wA1, wB1, wC1, wD1, wA2, wB2, wC2, wD2]
  have hopen24 : anyPos patOpen24At
      [q1, q2, q3, ' ', A1, B1, ':', C1, D1, ' ', '-', ' ', A2, B2, ':', C2, D2] = false := by
    simp +decide [anyPos, patOpen24At, twoFourAfterWs, List.dropWhile_cons, List.isPrefixOf,
      hwq3, wA1, wB1, wC1, wD1, wA2, wB2, wC2, wD2]
  have htr : parseTimeRange
      [p1, p2, p3, ' ', A1, B1, ':', C1, D1, ' ', '-', ' ', A2, B2, ':', C2, D2]
      = some ([A1, B1, ':', C1, D1], [A2, B2, ':', C2, D2]) := by
    rw [parseTimeRange, hnd, hlow, h24, hopen24]
    simp [hfind, hp1, hp2]
  have htrim : trimList
      [p1, p2, p3, ' ', A1, B1, ':', C1, D1, ' ', '-', ' ', A2, B2, ':', C2, D2]
      = [p1, p2, p3, ' ', A1, B1, ':', C1, D1, ' ', '-', ' ', A2, B2, ':', C2, D2] := by
    simp +decide [trimList, List.dropWhile_cons, hwp1, wA1, wB1, wC1, wD1, wA2, wB2, wC2, wD2]
  have hclosed : containsSub "closed".data
      [q1, q2, q3, ' ', A1, B1, ':', C1, D1, ' ', '-', ' ', A2, B2, ':', C2, D2] = false := by
    simp +decide [containsSub, anyPos, List.isPrefixOf]
  have hidx : firstDigitIdx
      [p1, p2, p3, ' ', A1, B1, ':', C1, D1, ' ', '-', ' ', A2, B2, ':', C2, D2]
      = some 4 := by
    simp +decide [firstDigitIdx, dA1, hd1, hd2, hd3]
  have hne : ((h1 * 60 + m1) == (h2 * 60 + m2)) = false := by
    simp only [beq_eq_false_iff_ne, ne_eq]
    omega
  simp [parseHoursLines, parseLine, htrim, hclosed, htr, daysPartText, hnd, hidx,
    hl1, hl2, hl3, lA1, lB1, lC1, lD1, lA2, lB2, lC2, lD2, hpd,
    normalizeSpan, hto1, hto2, hne, hlt]

theorem parse_render_roundtrip (day h1 m1 h2 m2 : Nat) (hday : day < 7)
    (hh1 : h1 ≤ 24) (hm1 : m1 ≤ 59) (h241 : h1 = 24 → m1 = 0)
    (hh2 : h2 ≤ 24) (hm2 : m2 ≤ 59) (h242 : h2 = 24 → m2 = 0)
    (hlt : h1 * 60 + m1 < h2 * 60 + m2) :
    parseHoursLines [renderLine day (renderTime h1 m1) (renderTime h2 m2)]
      = [⟨day, renderTime h1 m1, renderTime h2 m2⟩] := by
  interval_cases day <;>
    [exact roundtrip_core 'S' 'u' 'n' 's' 'u' 'n' 0 h1 m1 h2 m2 (by decide) (by decide)
      (by decide) (by decide) (by decide) (by decide) (by decide) (by decide) (by decide)
      (by decide) (by decide) (by decide) (by decide) (by decide)
      hh1 hm1 h241 hh2 hm2 h242 hlt;
     exact roundtrip_core 'M' 'o' 'n' 'm' 'o' 'n' 1 h1 m1 h2 m2 (by decide) (by decide)
      (by decide) (by decide) (by decide) (by decide) (by decide) (by decide) (by decide)
      (by decide) (by decide) (by decide) (by decide) (by decide)
      hh1 hm1 h241 hh2 hm2 h242 hlt;
     exact roundtrip_core 'T' 'u' 'e' 't' 'u' 'e' 2 h1 m1 h2 m2 (by decide) (by decide)
      (by decide) (by decide) (by decide) (by decide) (by decide) (by decide) (by decide)
      (by decide) (by decide) (by decide) (by decide) (by decide)
      hh1 hm1 h241 hh2 hm2 h242 hlt;
     exact roundtrip_core 'W' 'e' 'd' 'w' 'e' 'd' 3 h1 m1 h2 m2 (by decide) (by decide)
      (by decide) (by decide) (by decide) (by decide) (by decide) (by decide) (by decide)
      (by decide) (by decide) (by decide) (by decide) (by decide)
      hh1 hm1 h241 hh2 hm2 h242 hlt;
     exact roundtrip_core 'T' 'h' 'u' 't' 'h' 'u' 4 h1 m1 h2 m2 (by decide) (by decide)
      (by decide) (by decide) (by decide) (by decide) (by decide) (by decide) (by decide)
      (by decide) (by decide) (by decide) (by decide) (by decide)
      hh1 hm1 h241 hh2 hm2 h242 hlt;
     exact roundtrip_core 'F' 'r' 'i' 'f' 'r' 'i' 5 h1 m1 h2 m2 (by decide) (by decide)
      (by decide) (by decide) (by decide) (by decide) (by decide) (by decide) (by decide)
      (by decide) (by decide) (by decide) (by decide) (by decide)
      hh1 hm1 h241 hh2 hm2 h242 hlt;
     exact roundtrip_core 'S' 'a' 't' 's' 'a' 't' 6 h1 m1 h2 m2 (by decide) (by decide)
      (by decide) (by decide) (by decide) (by decide) (by decide) (by decide) (by decide)
      (by decide) (by decide) (by decide) (by decide) (by decide)
      hh1 hm1 h241 hh2 hm2 h242 hlt]

end RoundTrip

/-- Every successful parseTimeTo24h output is the canonical rendering of a
bounded hour and minute. -/
theorem parseTimeTo24h_shape (value t : List Char) (ht : parseTimeTo24h value = some t) :
    ∃ h m, h ≤ 24 ∧ m ≤ 59 ∧ (h = 24 → m = 0) ∧ t = renderTime h m := by
  unfold parseTimeTo24h at ht
  cases hm : matchTime24 (cleanTime value) with
  | none => rw [hm] at ht; cases ht
  | some r =>
    obtain ⟨h, mo, mer⟩ := r
    rw [hm] at ht
    simp only at ht
    by_cases hmin : mo.getD 0 > 59
    · rw [if_pos hmin] at ht; cases ht
    · rw [if_neg hmin] at ht
      cases mer with
      | none =>
        simp only at ht
        by_cases hh : h > 24
        · rw [if_pos hh] at ht; cases ht
        · rw [if_neg hh] at ht
          simp only at ht
          by_cases h24 : (h == 24 && mo.getD 0 != 0) = true
          · rw [if_pos h24] at ht; cases ht
          · rw [if_neg h24] at ht
            refine ⟨h, mo.getD 0, by omega, by omega, ?_, by
              cases ht; rfl⟩
            intro hh24
            subst hh24
            simpa using h24
      | some m =>
        cases m with
        | am =>
          simp only at ht
          by_cases hr : (h < 1 || h > 12) = true
          · rw [if_pos hr] at ht; cases ht
          · rw [if_neg hr] at ht
            simp only at ht
            by_cases h24 : ((if h == 12 then 0 else h) == 24 && mo.getD 0 != 0) = true
            · rw [if_pos h24] at ht; cases ht
            · rw [if_neg h24] at ht
              simp only [Bool.or_eq_true, decide_eq_true_eq, not_or] at hr
              by_cases h12 : h = 12
              · refine ⟨0, mo.getD 0, by omega, by omega, by omega, ?_⟩
                rw [if_pos (by simpa using h12)] at ht
                cases ht; rfl
              · refine ⟨h, mo.getD 0, by omega, by omega, by omega, ?_⟩
                rw [if_neg (by simpa using h12)] at ht
                cases ht; rfl
        | pm =>
          simp only at ht
          by_cases hr : (h < 1 || h > 12) = true
          · rw [if_pos hr] at ht; cases ht
          · rw [if_neg hr] at ht
            simp only at ht
            by_cases h24 : ((if h == 12 then 12 else h + 12) == 24 && mo.getD 0 != 0) = true
            · rw [if_pos h24] at ht; cases ht
            · rw [if_neg h24] at ht
              simp only [Bool.or_eq_true, decide_eq_true_eq, not_or] at hr
              by_cases h12 : h = 12
              · refine ⟨12, mo.getD 0, by omega, by omega, by omega, ?_⟩
                rw [if_pos (by simpa using h12)] at ht
                cases ht; rfl
              · refine ⟨h + 12, mo.getD 0, by omega, by omega, by omega, ?_⟩
                rw [if_neg (by simpa using h12)] at ht
                cases ht; rfl

/-- Successful clock-time parses denote at most 1440 minutes. -/
theorem parseTimeTo24h_bound (value t : List Char) (ht : parseTimeTo24h value = some t) :
    ∃ v, toMinutes t = some v ∧ v ≤ 1440 := by
  obtain ⟨h, m, hh, hm, h24, rfl⟩ := parseTimeTo24h_shape value t ht
  refine ⟨h * 60 + m, toMinutes_renderTime h (by omega) m (by omega), ?_⟩
  rcases Nat.lt_or_ge h 24 with hlt | hge
  · omega
  · have : h = 24 := by omega
    have := h24 this
    omega

/-- Both sides of a successful parseTimeRange denote at most 1440 minutes. -/
theorem parseTimeRange_bound (text o c : List Char)
    (h : parseTimeRange text = some (o, c)) :
    (∃ v, toMinutes o = some v ∧ v ≤ 1440) ∧ (∃ v, toMinutes c = some v ∧ v ≤ 1440) := by
  unfold parseTimeRange at h
  by_cases hall : (anyPos pat24At ((normalizeDash text).map Char.toLower)
      || anyPos patOpen24At ((normalizeDash text).map Char.toLower)) = true
  · rw [if_pos hall] at h
    simp only [Option.some.injEq, Prod.mk.injEq] at h
    obtain ⟨rfl, rfl⟩ := h
    exact ⟨⟨0, by decide, by omega⟩, ⟨1440, by decide, by omega⟩⟩
  · rw [if_neg hall] at h
    cases hf : findTimeRange (normalizeDash text) with
    | none => rw [hf] at h; cases h
    | some g =>
      obtain ⟨g1, g2⟩ := g
      rw [hf] at h
      simp only at h
      cases hp1 : parseTimeTo24h g1 with
      | none => rw [hp1] at h; simp at h
      | some o2 =>
        cases hp2 : parseTimeTo24h g2 with
        | none => rw [hp1, hp2] at h; simp at h
        | some c2 =>
          rw [hp1, hp2] at h
          simp only at h
          simp only [Option.some.injEq, Prod.mk.injEq] at h
          obtain ⟨rfl, rfl⟩ := h
          exact ⟨parseTimeTo24h_bound _ _ hp1, parseTimeTo24h_bound _ _ hp2⟩

/-- Every tentative span collected from a line has well-formed bounded
times (they come from parseTimeRange). -/
theorem parseLine_bound (line : List Char) (s : HoursSpan) (hs : s ∈ parseLine line) :
    (∃ v, toMinutes s.openTime = some v ∧ v ≤ 1440)
    ∧ (∃ v, toMinutes s.closeTime = some v ∧ v ≤ 1440) := by
  simp only [parseLine] at hs
  split at hs
  · simp at hs
  · split at hs
    · simp at hs
    · split at hs
      · simp at hs
      · next tr heq =>
        rw [List.mem_map] at hs
        obtain ⟨d, _, rfl⟩ := hs
        exact parseTimeRange_bound _ _ _ heq

/-- Normalization emits only intervals with open at most close, provided
the times of the tentative span are well formed and bounded. -/
theorem normalizeSpan_le (s t : HoursSpan)
    (ho : ∃ v, toMinutes s.openTime = some v ∧ v ≤ 1440)
    (hc : ∃ v, toMinutes s.closeTime = some v ∧ v ≤ 1440)
    (ht : t ∈ normalizeSpan s) : spanOpenLeClose t = true := by
  obtain ⟨o, ho1, ho2⟩ := ho
  obtain ⟨c, hc1, _⟩ := hc
  unfold normalizeSpan at ht
  rw [ho1, hc1] at ht
  simp only at ht
  by_cases heq : (o == c) = true
  · rw [if_pos heq] at ht
    simp at ht
  · rw [if_neg heq] at ht
    by_cases hlt : o < c
    · rw [if_pos hlt] at ht
      simp only [List.mem_singleton] at ht
      subst ht
      unfold spanOpenLeClose
      rw [ho1, hc1]
      simp
      omega
    · rw [if_neg hlt] at ht
      simp only [List.mem_cons, List.mem_singleton, List.not_mem_nil, or_false] at ht
      rcases ht with rfl | rfl
      · unfold spanOpenLeClose
        simp only [ho1, (by decide : toMinutes "24:00".data = some 1440), decide_eq_true_eq]
        omega
      · unfold spanOpenLeClose
        simp only [hc1, (by decide : toMinutes "00:00".data = some 0), decide_eq_true_eq]
        omega

/-- All intervals produced by the line parser satisfy the non-strict
invariant: open is at most close in minutes. -/
theorem parseHoursLines_le (lines : List (List Char)) :
    (parseHoursLines lines).all spanOpenLeClose = true := by
  rw [List.all_eq_true]
  intro t htmem
  simp only [parseHoursLines, List.mem_flatMap] at htmem
  obtain ⟨s, hs, hts⟩ := htmem
  obtain ⟨line, _, hsline⟩ := hs
  exact normalizeSpan_le s t (parseLine_bound line s hsline).1 (parseLine_bound line s hsline).2 hts


/-- A nonempty filtered find implies the span list itself is nonempty. -/
theorem findOpenSpan_nonempty {spans : List HoursSpan} {day minutes : Nat} {s : HoursSpan}
    (h : findOpenSpan spans day minutes = some s) : spans.isEmpty = false := by
  have hmem := List.mem_of_find?_eq_some h
  rw [List.mem_filter] at hmem
  cases spans with
  | nil => simp at hmem
  | cons a l => rfl

/-- The boolean open test agrees with the status engine: open or
closing_soon exactly when some span of the query day contains the query
minute. -/
theorem isOpenAt_iff_open_status (spans : List HoursSpan) (day minutes : Nat)
    (opts : HoursStatusOptions) :
    isOpenAt spans day minutes = true ↔
      ((getHoursStatus spans day minutes opts).status = HoursStatus.openStatus
       ∨ (getHoursStatus spans day minutes opts).status = HoursStatus.closingSoon) := by
  unfold isOpenAt getHoursStatus
  by_cases hemp : spans.isEmpty = true
  · rw [if_pos hemp, if_pos hemp]
    simp
  · rw [if_neg hemp, if_neg hemp]
    cases hfind : findOpenSpan spans day minutes with
    | some s =>
      simp only
      constructor
      · intro _
        simp only [openBranch]
        split
        · next h => simp [h]
        · next h =>
          split
          · right; rfl
          · left; rfl
      · intro _
        have hmem := List.mem_of_find?_eq_some hfind
        have hpred := List.find?_some hfind
        rw [List.mem_filter] at hmem
        rw [List.any_eq_true]
        exact ⟨s, hmem.1, by simp [hmem.2, hpred]⟩
    | none =>
      simp only
      constructor
      · intro hany
        exfalso
        rw [List.any_eq_true] at hany
        obtain ⟨s, hmem, hpred⟩ := hany
        rw [Bool.and_eq_true] at hpred
        have h1 : s ∈ spans.filter (fun x => x.day == day) :=
          List.mem_filter.mpr ⟨hmem, hpred.1⟩
        unfold findOpenSpan at hfind
        rw [List.find?_eq_none] at hfind
        exact absurd hpred.2 (by simpa using hfind s h1)
      · intro hst
        exfalso
        simp only [closedBranch] at hst
        split at hst <;> simp at hst

/-- The countdown merge of getHoursStatus: inside a span closing at the
24:00 sentinel (and not all-day), the countdown continues into a next-day
span opening at 00:00 when one exists, and otherwise runs exactly to
midnight. -/
theorem minutesUntilClose_merge (spans : List HoursSpan) (day minutes : Nat)
    (s : HoursSpan) (opts : HoursStatusOptions)
    (hfind : findOpenSpan spans day minutes = some s)
    (hclose : s.closeTime = "24:00".data)
    (hopen : (s.openTime == "00:00".data) = false) :
    (∀ m, (spans.filter (fun t => t.day == (day + 1) % 7)).find?
        (fun t => t.openTime == "00:00".data) = some m →
      ∀ v, toMinutes m.closeTime = some v →
      (getHoursStatus spans day minutes opts).minutesUntilClose
        = some (24 * 60 - minutes + v))
    ∧ ((spans.filter (fun t => t.day == (day + 1) % 7)).find?
        (fun t => t.openTime == "00:00".data) = none →
      (getHoursStatus spans day minutes opts).minutesUntilClose
        = some (24 * 60 - minutes)) := by
  have hemp := findOpenSpan_nonempty hfind
  unfold getHoursStatus
  rw [if_neg (by simp [hemp]), hfind]
  simp only
  constructor
  · intro m hm v hv
    have hcomp : computeMinutesUntilClose spans day minutes s
        = some (24 * 60 - minutes + v) := by
      unfold computeMinutesUntilClose
      rw [hclose, hm]
      simp [hv]
    simp only [openBranch, hopen, Bool.false_and, Bool.false_eq_true, if_false, hcomp]
    split <;> rfl
  · intro hm
    have hcomp : computeMinutesUntilClose spans day minutes s
        = some (24 * 60 - minutes) := by
      unfold computeMinutesUntilClose
      rw [hclose, hm]
      simp +decide
      exact ⟨1440, by decide, rfl⟩
    simp only [openBranch, hopen, Bool.false_and, Bool.false_eq_true, if_false, hcomp]
    split <;> rfl

/-- The closing-soon threshold of getHoursStatus is inclusive: inside a
non-all-day span, a countdown at or below the threshold yields
closing_soon and a countdown above it yields open, both carrying the
countdown. -/
theorem closing_soon_threshold (spans : List HoursSpan) (day minutes : Nat)
    (s : HoursSpan) (opts : HoursStatusOptions)
    (hfind : findOpenSpan spans day minutes = some s)
    (hallday : (s.openTime == "00:00".data && s.closeTime == "24:00".data) = false)
    (hthr : opts.closingSoonMinutes.getD 90 = 90) :
    (∀ v, computeMinutesUntilClose spans day minutes s = some v → v ≤ 90 →
      getHoursStatus spans day minutes opts
        = ⟨HoursStatus.closingSoon, some v, none⟩)
    ∧ (∀ v, computeMinutesUntilClose spans day minutes s = some v → 90 < v →
      getHoursStatus spans day minutes opts
        = ⟨HoursStatus.openStatus, some v, none⟩) := by
  have hemp := findOpenSpan_nonempty hfind
  unfold getHoursStatus
  rw [if_neg (by simp [hemp]), hfind, hthr]
  simp only
  constructor
  · intro v hv hle
    simp only [openBranch, hallday, Bool.not_false, Bool.true_and, Bool.false_eq_true,
      if_false, hv, okLE, decide_eq_true_eq]
    rw [if_pos hle]
  · intro v hv hgt
    simp only [openBranch, hallday, Bool.not_false, Bool.true_and, Bool.false_eq_true,
      if_false, hv, okLE, decide_eq_true_eq]
    rw [if_neg (by omega)]

/-- Overnight normalization: a wraparound tentative span splits into the
head-to-midnight piece and the midnight-to-close piece of the next day,
and for the 22:00-02:00 instance the two pieces cover exactly the minutes
of the naive wraparound span. -/
theorem overnight_split_spec :
    (∀ (s : HoursSpan) (o c : Nat), toMinutes s.openTime = some o →
        toMinutes s.closeTime = some c → c < o →
        normalizeSpan s = [⟨s.day, s.openTime, "24:00".data⟩,
          ⟨(s.day + 1) % 7, "00:00".data, s.closeTime⟩])
    ∧ (∀ d : Nat, normalizeSpan ⟨d, "22:00".data, "02:00".data⟩
        = [⟨d, "22:00".data, "24:00".data⟩, ⟨(d + 1) % 7, "00:00".data, "02:00".data⟩])
    ∧ (∀ d dq m : Nat, m < 1440 →
        ((spanCovers ⟨d, "22:00".data, "24:00".data⟩ dq m
          || spanCovers ⟨(d + 1) % 7, "00:00".data, "02:00".data⟩ dq m) = true
        ↔ wrapCovers d 1320 120 dq m = true)) := by
  refine ⟨?_, ?_, ?_⟩
  · intro s o c ho hc hlt
    unfold normalizeSpan
    rw [ho, hc]
    simp only
    rw [if_neg (by simp only [beq_iff_eq]; omega), if_neg (by omega)]
  · intro d
    unfold normalizeSpan
    simp only [(by decide : toMinutes "22:00".data = some 1320),
      (by decide : toMinutes "02:00".data = some 120)]
    rw [if_neg (by decide), if_neg (by omega)]
  · intro d dq m hm
    simp only [spanCovers, spanContains, wrapCovers,
      (by decide : toMinutes "22:00".data = some 1320),
      (by decide : toMinutes "24:00".data = some 1440),
      (by decide : toMinutes "00:00".data = some 0),
      (by decide : toMinutes "02:00".data = some 120)]
    simp only [Bool.or_eq_true, Bool.and_eq_true, beq_iff_eq, decide_eq_true_eq]
    omega

/-- The hour rules of the clock-time parser, stated on the regex
decomposition of the cleaned input: meridiem hours are restricted to 1-12
with the 12am and 12pm special cases and pm adding twelve, plain hours are
restricted to 0-24, and hour 24 only pairs with minute zero. -/
theorem parseTimeTo24h_rules (value : List Char) (h : Nat) (mo : Option Nat)
    (mer : Option Meridiem) (hm : matchTime24 (cleanTime value) = some (h, mo, mer)) :
    ((mer ≠ none → (h < 1 ∨ 12 < h) → parseTimeTo24h value = none)
    ∧ (mer = some Meridiem.am → h = 12 → mo.getD 0 ≤ 59 →
        parseTimeTo24h value = some (renderTime 0 (mo.getD 0)))
    ∧ (mer = some Meridiem.pm → h = 12 → mo.getD 0 ≤ 59 →
        parseTimeTo24h value = some (renderTime 12 (mo.getD 0)))
    ∧ (mer = some Meridiem.pm → 1 ≤ h → h ≤ 11 → mo.getD 0 ≤ 59 →
        parseTimeTo24h value = some (renderTime (h + 12) (mo.getD 0)))
    ∧ (mer = some Meridiem.am → 1 ≤ h → h ≤ 11 → mo.getD 0 ≤ 59 →
        parseTimeTo24h value = some (renderTime h (mo.getD 0)))
    ∧ (mer = none → 24 < h → parseTimeTo24h value = none)
    ∧ (mer = none → h ≤ 24 → mo.getD 0 ≤ 59 → (h = 24 → mo.getD 0 = 0) →
        parseTimeTo24h value = some (renderTime h (mo.getD 0)))
    ∧ (mer = none → h = 24 → mo.getD 0 ≠ 0 → parseTimeTo24h value = none)) := by
  refine ⟨?_, ?_, ?_, ?_, ?_, ?_, ?_, ?_⟩
  · intro hmer hrange
    unfold parseTimeTo24h
    rw [hm]
    simp only
    by_cases hmin : mo.getD 0 > 59
    · rw [if_pos hmin]
    · rw [if_neg hmin]
      cases mer with
      | none => exact absurd rfl hmer
      | some mm =>
        cases mm <;> simp only <;>
          rw [if_pos (show ((h < 1 || h > 12) = true) by
            simp only [Bool.or_eq_true, decide_eq_true_eq]; omega)]
  · intro hme h12 hmin
    subst hme h12
    unfold parseTimeTo24h
    rw [hm]
    simp only
    rw [if_neg (show ¬(mo.getD 0 > 59) by omega)]
    simp +decide
  · intro hme h12 hmin
    subst hme h12
    unfold parseTimeTo24h
    rw [hm]
    simp only
    rw [if_neg (show ¬(mo.getD 0 > 59) by omega)]
    simp +decide
  · intro hme h1 h11 hmin
    subst hme
    unfold parseTimeTo24h
    rw [hm]
    simp only
    rw [if_neg (show ¬(mo.getD 0 > 59) by omega),
      if_neg (show ¬((h < 1 || h > 12) = true) by
        simp only [Bool.or_eq_true, decide_eq_true_eq]; omega)]
    have hb : (h == 12) = false := by simp only [beq_eq_false_iff_ne, ne_eq]; omega
    have hc : ((h + 12 == 24) && (mo.getD 0 != 0)) = false := by
      have h2 : (h + 12 == 24) = false := by simp only [beq_eq_false_iff_ne, ne_eq]; omega
      simp [h2]
    simp [hb, hc]
  · intro hme h1 h11 hmin
    subst hme
    unfold parseTimeTo24h
    rw [hm]
    simp only
    rw [if_neg (show ¬(mo.getD 0 > 59) by omega),
      if_neg (show ¬((h < 1 || h > 12) = true) by
        simp only [Bool.or_eq_true, decide_eq_true_eq]; omega)]
    have hb : (h == 12) = false := by simp only [beq_eq_false_iff_ne, ne_eq]; omega
    have hc : ((h == 24) && (mo.getD 0 != 0)) = false := by
      have h2 : (h == 24) = false := by simp only [beq_eq_false_iff_ne, ne_eq]; omega
      simp [h2]
    simp [hb, hc]
  · intro hme hgt
    subst hme
    unfold parseTimeTo24h
    rw [hm]
    simp only
    by_cases hmin : mo.getD 0 > 59
    · rw [if_pos hmin]
    · rw [if_neg hmin]
      rw [if_pos hgt]
  · intro hme hle hmin h24
    subst hme
    unfold parseTimeTo24h
    rw [hm]
    simp only
    rw [if_neg (show ¬(mo.getD 0 > 59) by omega), if_neg (show ¬(h > 24) by omega)]
    simp only
    rw [if_neg (show ¬(((h == 24) && (mo.getD 0 != 0)) = true) by
      simp only [Bool.and_eq_true, beq_iff_eq, bne_iff_ne, ne_eq]; omega)]
  · intro hme h24 hne0
    subst hme h24
    unfold parseTimeTo24h
    rw [hm]
    simp only
    by_cases hmin : mo.getD 0 > 59
    · rw [if_pos hmin]
    · rw [if_neg hmin]
      rw [if_neg (show ¬((24:Nat) > 24) by omega)]
      simp only
      rw [if_pos (show (((24:Nat) == 24) && (mo.getD 0 != 0)) = true by
        simp only [Bool.and_eq_true, beq_iff_eq, bne_iff_ne, ne_eq]
        exact ⟨trivial, hne0⟩)]

/-- The day-spec text selection of parseHoursLines: the prefix before the
first digit when that digit is at a positive index, and the entire line
when the first digit is at index zero, so a line such as
"9:00 - 17:00 Mon" still recognizes its trailing day token. -/
theorem daysPart_selection :
    (∀ (line : List Char) (i : Nat), firstDigitIdx (normalizeDash line) = some i →
      0 < i → daysPartText line = line.take i)
    ∧ (∀ line : List Char, firstDigitIdx (normalizeDash line) = some 0 →
      daysPartText line = line)
    ∧ parseHoursLines ["9:00 - 17:00 Mon".data]
        = [⟨1, "09:00".data, "17:00".data⟩] := by
  refine ⟨?_, ?_, by decide⟩
  · intro line i hi hpos
    unfold daysPartText
    rw [hi]
    simp only
    rw [if_pos hpos]
  · intro line hi
    unfold daysPartText
    rw [hi]
    exact rfl

/-- normalizeTimeZone: fixed aliases and empty or absent input map to the
New York identifier, and every other input maps to its trimmed form (in
particular whitespace-only input also yields New York). -/
theorem normalizeTimeZone_spec :
    (∀ a ∈ tzAliases, normalizeTimeZone (some a) = NYC_TIMEZONE)
    ∧ normalizeTimeZone none = NYC_TIMEZONE
    ∧ normalizeTimeZone (some []) = NYC_TIMEZONE
    ∧ (∀ v : List Char, trimList v ≠ [] → trimList v ∉ tzAliases →
        normalizeTimeZone (some v) = trimList v)
    ∧ (∀ v : List Char, trimList v = [] → normalizeTimeZone (some v) = NYC_TIMEZONE) := by
  refine ⟨?_, by decide, by decide, ?_, ?_⟩
  · intro a ha
    fin_cases ha <;> decide
  · intro v h1 h2
    have hv : v.isEmpty = false := by
      cases v with
      | nil => exact absurd rfl h1
      | cons a l => rfl
    simp only [normalizeTimeZone]
    rw [if_neg (by simp [hv]), if_neg (by simpa [List.isEmpty_iff] using h1),
      if_neg (show ¬(tzAliases.contains (trimList v) = true) by
        rw [List.contains_iff_exists_mem_beq]
        simp only [beq_iff_eq]
        rintro ⟨b, hb, rfl⟩
        exact h2 hb)]
  · intro v h1
    simp only [normalizeTimeZone]
    cases hv : v.isEmpty
    · rw [if_neg (by simp [hv]), if_pos (by simp [List.isEmpty_iff, h1])]
    · rw [if_pos (by simp [hv])]

/-- The Tue 10:00pm - 2:00am line queried at Wednesday 01:30 does not
report plain open: the 30-minute countdown is at or below the default
90-minute closing-soon threshold. -/
theorem tue_overnight_wed_query_not_open :
    (getHoursStatus (parseHoursLines ["Tue 10:00pm - 2:00am".data]) 3 90 noOptions).status
      ≠ HoursStatus.openStatus := by decide

/-- The Tue 10:00pm - 2:00am line queried at Wednesday 01:30 with no
threshold overrides reports closing_soon with a 30-minute countdown. -/
theorem tue_overnight_wed_query_closing_soon :
    getHoursStatus (parseHoursLines ["Tue 10:00pm - 2:00am".data]) 3 90 noOptions
      = ⟨HoursStatus.closingSoon, some 30, none⟩ := by decide

/-- A line whose first digit is at position 0 uses the whole line as its
day-spec text, so its trailing day token is recognized and the line is not
discarded. -/
theorem leading_digit_line_not_discarded :
    daysPartText "9:00 - 17:00 Mon".data = "9:00 - 17:00 Mon".data
    ∧ parseHoursLines ["9:00 - 17:00 Mon".data] ≠ [] := by decide

/-- Witness: the day-spec selection rules evaluated on concrete lines. -/
theorem daysPart_selection_witness :
    daysPartText "Mon 9 - 17".data = "Mon 9 - 17".data.take 4
    ∧ daysPartText "9:00 - 17:00 Mon".data = "9:00 - 17:00 Mon".data :=
  ⟨daysPart_selection.1 "Mon 9 - 17".data 4 (by decide) (by decide),
   daysPart_selection.2.1 "9:00 - 17:00 Mon".data (by decide)⟩

/-- A naive close of 0:00 splits into a degenerate next-day interval whose
open equals its close, refuting the strict open-before-close invariant. -/
theorem midnight_close_degenerate_interval :
    parseHoursLines ["Mon 10:00pm - 0:00".data]
      = [⟨1, "22:00".data, "24:00".data⟩, ⟨2, "00:00".data, "00:00".data⟩]
    ∧ (parseHoursLines ["Mon 10:00pm - 0:00".data]).all spanOpenLtClose = false := by
  decide

/-- Witness: the midnight countdown merge on a split overnight interval,
with and without the next-day continuation. -/
theorem minutesUntilClose_merge_witness :
    (getHoursStatus [⟨2, "22:00".data, "24:00".data⟩, ⟨3, "00:00".data, "02:00".data⟩]
        2 1380 noOptions).minutesUntilClose = some 180
    ∧ (getHoursStatus [⟨2, "22:00".data, "24:00".data⟩] 2 1380
        noOptions).minutesUntilClose = some 60 := by
  constructor
  · have h := (minutesUntilClose_merge
      [⟨2, "22:00".data, "24:00".data⟩, ⟨3, "00:00".data, "02:00".data⟩] 2 1380
      ⟨2, "22:00".data, "24:00".data⟩ noOptions (by decide) (by decide) (by decide)).1
      ⟨3, "00:00".data, "02:00".data⟩ (by decide) 120 (by decide)
    simpa using h
  · have h := (minutesUntilClose_merge [⟨2, "22:00".data, "24:00".data⟩] 2 1380
      ⟨2, "22:00".data, "24:00".data⟩ noOptions (by decide) (by decide) (by decide)).2
      (by decide)
    simpa using h

/-- Witness: the inclusive closing-soon boundary at 90 and 91 minutes
before close. -/
theorem closing_soon_threshold_witness :
    getHoursStatus [⟨1, "09:00".data, "17:00".data⟩] 1 930 noOptions
      = ⟨HoursStatus.closingSoon, some 90, none⟩
    ∧ getHoursStatus [⟨1, "09:00".data, "17:00".data⟩] 1 929 noOptions
      = ⟨HoursStatus.openStatus, some 91, none⟩ := by
  constructor
  · exact (closing_soon_threshold [⟨1, "09:00".data, "17:00".data⟩] 1 930
      ⟨1, "09:00".data, "17:00".data⟩ noOptions (by decide) (by decide) (by decide)).1
      90 (by decide) (by omega)
  · exact (closing_soon_threshold [⟨1, "09:00".data, "17:00".data⟩] 1 929
      ⟨1, "09:00".data, "17:00".data⟩ noOptions (by decide) (by decide) (by decide)).2
      91 (by decide) (by omega)

/-- Witness: the 22:00-02:00 overnight split and the coverage of a
next-day minute. -/
theorem overnight_split_witness :
    normalizeSpan ⟨1, "22:00".data, "02:00".data⟩
      = [⟨1, "22:00".data, "24:00".data⟩, ⟨2, "00:00".data, "02:00".data⟩]
    ∧ ((spanCovers ⟨1, "22:00".data, "24:00".data⟩ 2 60
        || spanCovers ⟨2, "00:00".data, "02:00".data⟩ 2 60) = true
      ↔ wrapCovers 1 1320 120 2 60 = true) := by
  constructor
  · have h := overnight_split_spec.2.1 1
    simpa using h
  · exact overnight_split_spec.2.2 1 2 60 (by omega)

/-- An input with surrounding whitespace is returned trimmed, not
unchanged. -/
theorem normalizeTimeZone_not_unchanged :
    normalizeTimeZone (some " UTC ".data) ≠ " UTC ".data := by decide

/-- Witness: alias mapping, trimmed pass-through and whitespace-only
normalization on concrete inputs. -/
theorem normalizeTimeZone_witness :
    normalizeTimeZone (some "US/Eastern".data) = NYC_TIMEZONE
    ∧ normalizeTimeZone (some " UTC ".data) = trimList " UTC ".data
    ∧ normalizeTimeZone (some "   ".data) = NYC_TIMEZONE :=
  ⟨normalizeTimeZone_spec.1 "US/Eastern".data (by decide),
   normalizeTimeZone_spec.2.2.2.1 " UTC ".data (by decide) (by decide),
   normalizeTimeZone_spec.2.2.2.2 "   ".data (by decide)⟩

/-- Witness: the clock-time hour rules on concrete tokens. -/
theorem parseTimeTo24h_rules_witness :
    parseTimeTo24h "12am".data = some (renderTime 0 0)
    ∧ parseTimeTo24h "7:30pm".data = some (renderTime 19 30)
    ∧ parseTimeTo24h "13pm".data = none
    ∧ parseTimeTo24h "24:30".data = none := by
  refine ⟨?_, ?_, ?_, ?_⟩
  · exact (parseTimeTo24h_rules "12am".data 12 none (some Meridiem.am) (by decide)).2.1
      rfl rfl (by decide)
  · exact (parseTimeTo24h_rules "7:30pm".data 7 (some 30) (some Meridiem.pm)
      (by decide)).2.2.2.1 rfl (by omega) (by omega) (by decide)
  · exact (parseTimeTo24h_rules "13pm".data 13 none (some Meridiem.pm) (by decide)).1
      (by simp) (by omega)
  · exact (parseTimeTo24h_rules "24:30".data 24 (some 30) none
      (by decide)).2.2.2.2.2.2.2 rfl rfl (by decide)

/-- Witness: the canonical Mon 09:00 - 17:00 rendering re-parses to the
single interval it came from. -/
theorem parse_render_roundtrip_witness :
    parseHoursLines [renderLine 1 (renderTime 9 0) (renderTime 17 0)]
      = [⟨1, renderTime 9 0, renderTime 17 0⟩] :=
  parse_render_roundtrip 1 9 0 17 0 (by omega) (by omega) (by omega) (by omega)
    (by omega) (by omega) (by omega) (by omega)

end AllAccess
